import Mathlib

/-!
Verification development for the Rubix (wren) asking service, its background
breakdown tracker, and the Rubix AI-service adaptor.

The TypeScript sources are shallowly embedded: pure string assembly becomes a
Lean function, stateful service methods become explicit state passing over a
repository state, and the timer-driven background tracker becomes a small-step
transition system whose steps are the synchronous segments of each polling job
(the segment up to the `await` of the fetch, and the segment after it).
-/

namespace Wren

/-- Modelled from the spec: the status enumeration of asking / ask-detail
results (`AskResultStatus` is imported from `@server/models/adaptor`, which is
not part of the embedded sources). The spec requires an initial non-terminal
state, intermediate non-terminal states, and `FINISHED`, `FAILED`, `STOPPED`
as the terminal ones; the embedded code only ever names `UNDERSTANDING`,
`FINISHED`, `FAILED` and `STOPPED`. -/
inductive AskResultStatus where
  | UNDERSTANDING
  | SEARCHING
  | GENERATING
  | FINISHED
  | FAILED
  | STOPPED
deriving DecidableEq, BEq

/-- `isFinalized` from `askingService`: a status is finalized when it is
`FAILED`, `FINISHED` or `STOPPED`. -/
def isFinalized (status : AskResultStatus) : Bool :=
  status == AskResultStatus.FAILED ||
  status == AskResultStatus.FINISHED ||
  status == AskResultStatus.STOPPED

/-- One breakdown step as consumed by `constructCteSql`. -/
structure Step where
  cteName : String
  summary : String
  sql : String
deriving DecidableEq

/-- Concatenation of a list of string segments (used to state the shape of a
generated CTE statement). -/
def concatParts : List String → String
  | [] => ""
  | x :: xs => x ++ concatParts xs

/-- The clause the `forEach` loop of `constructCteSql` appends for the step at
position `idx` of a sliced list of length `n`. -/
def renderClause (n idx : Nat) (step : Step) : String :=
  if idx = n - 1 then
    "\n-- " ++ step.summary ++ "\n" ++ step.sql
  else if idx = n - 2 then
    step.cteName ++ " AS" ++ "\n-- " ++ step.summary ++ "\n(" ++ step.sql ++ ")"
  else
    step.cteName ++ " AS" ++ "\n-- " ++ step.summary ++ "\n(" ++ step.sql ++ "),"

/-- The body of `constructCteSql` after slicing: a single step returns the
comment-annotated bare SQL; otherwise the `forEach` fold over the sliced list
starting from the accumulator `"WITH "`. -/
def emitCte (sliced : List Step) : String :=
  match sliced with
  | [s] => "-- " ++ s.summary ++ "\n" ++ s.sql
  | _ =>
    sliced.enum.foldl (fun acc p => acc ++ renderClause sliced.length p.1 p.2) "WITH "

/-- `constructCteSql` from `askingService`: validates the optional `stepIndex`
against the full list, slices the list to `stepIndex + 1` steps when the index
is provided, and emits the CTE statement. A thrown `Error` is modelled as
`Except.error` with the thrown message. -/
def constructCteSql (steps : List Step) (stepIndex : Option Int) : Except String String :=
  match stepIndex with
  | none => Except.ok (emitCte steps)
  | some i =>
    if i < 0 ∨ (steps.length : Int) ≤ i then
      Except.error s!"Invalid stepIndex: {i}"
    else
      Except.ok (emitCte (steps.take (i.toNat + 1)))

/-- Number of steps `constructCteSql` emits for a given cutoff: `cutoff + 1`
when the cutoff is provided, the whole list otherwise. -/
def emittedCount (steps : List Step) (stepIndex : Option Int) : Nat :=
  match stepIndex with
  | none => steps.length
  | some i => i.toNat + 1

/-- A cutoff is valid when it is omitted or lies in `[0, steps.length)`. -/
def validCutoff (steps : List Step) : Option Int → Prop
  | none => True
  | some i => 0 ≤ i ∧ i < (steps.length : Int)

/-- The step body the spec describes for position `i` among `k` emitted steps:
every step but the last two is `name AS (sql),`, the second-to-last is
`name AS (sql)` without the trailing comma, the last is the un-wrapped
trailing SQL; each is preceded by a comment line containing its summary. -/
def specStepBlock (k i : Nat) (step : Step) : String :=
  if i + 1 = k then
    "\n-- " ++ step.summary ++ "\n" ++ step.sql
  else if i + 2 = k then
    step.cteName ++ " AS" ++ "\n-- " ++ step.summary ++ "\n(" ++ step.sql ++ ")"
  else
    step.cteName ++ " AS" ++ "\n-- " ++ step.summary ++ "\n(" ++ step.sql ++ "),"

theorem foldl_append_eq_concatParts (g : Nat × Step → String) :
    ∀ (l : List (Nat × Step)) (init : String),
      l.foldl (fun acc p => acc ++ g p) init = init ++ concatParts (l.map g) := by
  intro l
  induction l with
  | nil => intro init; simp [concatParts]
  | cons a l ih =>
    intro init
    simp only [List.foldl_cons, List.map_cons, concatParts, ih]
    rw [String.append_assoc]

theorem isPrefixOf_append_self : ∀ (l₁ l₂ : List Char), l₁.isPrefixOf (l₁ ++ l₂) = true := by
  intro l₁ l₂
  induction l₁ with
  | nil => simp [List.isPrefixOf]
  | cons a l ih => simp [List.isPrefixOf, ih]

theorem renderClause_eq_specStepBlock (n i : Nat) (h : 2 ≤ n) (s : Step) :
    renderClause n i s = specStepBlock n i s := by
  unfold renderClause specStepBlock
  split_ifs <;> first | rfl | omega

theorem emitCte_multi (sliced : List Step) (h : 2 ≤ sliced.length) :
    emitCte sliced =
      "WITH " ++ concatParts
        (sliced.enum.map (fun p => specStepBlock sliced.length p.1 p.2)) := by
  match sliced, h with
  | a :: b :: t, _ =>
    have hfun :
        (fun p : Nat × Step => renderClause (a :: b :: t).length p.1 p.2) =
          (fun p : Nat × Step => specStepBlock (a :: b :: t).length p.1 p.2) := by
      funext p
      exact renderClause_eq_specStepBlock _ _ (by simp) p.2
    show (a :: b :: t).enum.foldl
        (fun acc p => acc ++ renderClause (a :: b :: t).length p.1 p.2) "WITH " = _
    rw [foldl_append_eq_concatParts, hfun]

/-- Claim C5: for a step list whose emitted prefix has length at least 2 and a
valid (or omitted) cutoff, `constructCteSql` succeeds and its output is exactly
`WITH ` followed by the concatenation of `cutoff + 1` (or `steps.length`) step
bodies, where every emitted step but the last two is `name AS (sql),`, the
second-to-last is `name AS (sql)` with no trailing comma, the last is the
un-wrapped trailing SQL, and each is preceded by a comment line containing its
summary; in particular the output starts with `WITH `. -/
theorem constructCteSql_multi_step (steps : List Step) (idx : Option Int)
    (hv : validCutoff steps idx) (h2 : 2 ≤ emittedCount steps idx) :
    ∃ out,
      constructCteSql steps idx = Except.ok out ∧
      out = "WITH " ++ concatParts
          (((steps.take (emittedCount steps idx)).enum).map
            (fun p => specStepBlock (emittedCount steps idx) p.1 p.2)) ∧
      ("WITH ".data.isPrefixOf out.data) = true ∧
      (steps.take (emittedCount steps idx)).length = emittedCount steps idx := by
  have hk : (steps.take (emittedCount steps idx)).length = emittedCount steps idx := by
    rw [List.length_take]
    cases idx with
    | none => simp [emittedCount]
    | some i =>
      simp only [validCutoff] at hv
      simp only [emittedCount]
      omega
  have heq : constructCteSql steps idx =
      Except.ok (emitCte (steps.take (emittedCount steps idx))) := by
    cases idx with
    | none => simp [constructCteSql, emittedCount, List.take_length]
    | some i =>
      simp only [validCutoff] at hv
      simp only [constructCteSql, emittedCount]
      rw [if_neg (by omega)]
  have hbody : emitCte (steps.take (emittedCount steps idx)) =
      "WITH " ++ concatParts
        (((steps.take (emittedCount steps idx)).enum).map
          (fun p => specStepBlock (emittedCount steps idx) p.1 p.2)) := by
    rw [emitCte_multi _ (by omega), hk]
  refine ⟨emitCte (steps.take (emittedCount steps idx)), heq, hbody, ?_, hk⟩
  rw [hbody, String.data_append]
  exact isPrefixOf_append_self _ _

/-- Witness for C5 at a concrete two-step list with the cutoff omitted. -/
theorem constructCteSql_multi_step_witness :
    ∃ out,
      constructCteSql
          [⟨"cte_a", "first", "SELECT 1"⟩, ⟨"cte_b", "second", "SELECT 2"⟩] none =
        Except.ok out ∧
      out = "WITH " ++ concatParts
          ((([(⟨"cte_a", "first", "SELECT 1"⟩ : Step),
              ⟨"cte_b", "second", "SELECT 2"⟩].take 2).enum).map
            (fun p => specStepBlock 2 p.1 p.2)) ∧
      ("WITH ".data.isPrefixOf out.data) = true ∧
      (([(⟨"cte_a", "first", "SELECT 1"⟩ : Step),
         ⟨"cte_b", "second", "SELECT 2"⟩].take 2)).length = 2 :=
  constructCteSql_multi_step
    [⟨"cte_a", "first", "SELECT 1"⟩, ⟨"cte_b", "second", "SELECT 2"⟩] none
    trivial (by decide)

/-- Counterexample to claim C5 as stated: on a step list of length 2 with the
valid cutoff index 0, `constructCteSql` slices to a single step and returns
the bare comment-annotated SQL, which does not start with `WITH ` and contains
a single step body — so the claim's `WITH` shape fails inside its quantified
domain of valid cutoffs on length-≥2 lists. -/
theorem constructCteSql_cutoff_zero_counterexample :
    validCutoff
      [⟨"cte_a", "first", "SELECT 1"⟩, ⟨"cte_b", "second", "SELECT 2"⟩] (some 0) ∧
    constructCteSql
        [⟨"cte_a", "first", "SELECT 1"⟩, ⟨"cte_b", "second", "SELECT 2"⟩] (some 0) =
      Except.ok ("-- first\nSELECT 1") ∧
    ("WITH ".data.isPrefixOf ("-- first\nSELECT 1").data) = false := by
  refine ⟨⟨by decide, by decide⟩, rfl, by decide⟩

/-- Claim C6: for a step list of length 1 (cutoff omitted or 0),
`constructCteSql` returns exactly `"-- {summary}\n{sql}"` built from the single
step, and that string does not start with a `WITH` clause. -/
theorem constructCteSql_single_step (s : Step) :
    constructCteSql [s] none = Except.ok ("-- " ++ s.summary ++ "\n" ++ s.sql) ∧
    constructCteSql [s] (some 0) = Except.ok ("-- " ++ s.summary ++ "\n" ++ s.sql) ∧
    ("WITH ".data.isPrefixOf ("-- " ++ s.summary ++ "\n" ++ s.sql).data) = false := by
  refine ⟨rfl, rfl, ?_⟩
  simp [String.data_append, List.isPrefixOf]

/-- Claim C7: for any provided cutoff index that is negative or at least the
list's length, `constructCteSql` raises the validation error synchronously,
producing no SQL. -/
theorem constructCteSql_invalid_cutoff (steps : List Step) (i : Int)
    (h : i < 0 ∨ (steps.length : Int) ≤ i) :
    constructCteSql steps (some i) = Except.error s!"Invalid stepIndex: {i}" := by
  simp only [constructCteSql, if_pos h]

/-- Witness for C7 at the concrete input `steps = []`, `i = 0`. -/
theorem constructCteSql_invalid_cutoff_witness :
    constructCteSql [] (some 0) = Except.error "Invalid stepIndex: 0" :=
  constructCteSql_invalid_cutoff [] 0 (by decide)

/-! ### Rubix adaptor: wire status transformation and deploy wait loop -/

/-- A result body from the AI service as far as status/error transformation is
concerned: an optional wire status string and an optional error code. -/
structure WireBody where
  status : Option String
  errorCode : Option String
deriving DecidableEq

/-- Upper-casing of a wire string (JS `String.prototype.toUpperCase`),
character by character. -/
def toUpperWire (s : String) : String :=
  ⟨s.data.map Char.toUpper⟩

/-- The wire spellings of the `AskResultStatus` enumeration (upper-cased, as
matched internally). -/
def askResultStatusStrings : List String :=
  ["UNDERSTANDING", "SEARCHING", "GENERATING", "FINISHED", "FAILED", "STOPPED"]

/-- `RubixAdaptor.transformStatusAndError`: upper-cases `body?.status`, throws
`Unknown ask status` when the result is falsy (missing or empty), and otherwise
returns the upper-cased status together with the transformed error. The
TypeScript narrows the status with a type assertion only, so no membership
check against the enumeration happens at runtime. Thrown errors are modelled
as `Except.error` with the thrown message; the error payload is modelled by
its code. -/
def transformStatusAndError (body : WireBody) : Except String (String × Option String) :=
  match body.status with
  | none => Except.error "Unknown ask status: undefined"
  | some raw =>
    if toUpperWire raw = "" then
      Except.error ("Unknown ask status: " ++ raw)
    else
      Except.ok (toUpperWire raw, body.errorCode)

theorem toUpperWire_ne_empty (s : String) (h : s ≠ "") : toUpperWire s ≠ "" := by
  intro hcontra
  apply h
  have hd : s.data.map Char.toUpper = [] := congrArg String.data hcontra
  have hnil : s.data = [] := List.map_eq_nil_iff.mp hd
  cases s
  cases hnil
  rfl

/-- Counterexample to claim C3 as stated: the wire status `"bogus"` is not in
the expected enumeration, yet `transformStatusAndError` raises no error at all
— it silently passes the upper-cased string through as the status. -/
theorem unknown_status_not_fatal_counterexample :
    transformStatusAndError ⟨some "bogus", none⟩ = Except.ok ("BOGUS", none) ∧
    "BOGUS" ∉ askResultStatusStrings := by
  constructor
  · rfl
  · decide

/-- Claim C3 (amended): a status string arriving from the remote service is
upper-cased before being matched into the typed enumeration, and only a
missing or empty status string is treated as a fatal error for that poll
cycle; any non-empty status string — recognized by the enumeration or not —
is passed through upper-cased without raising. -/
theorem transform_status_uppercases_and_rejects_empty (body : WireBody) (s : String)
    (hs : body.status = some s) (hne : s ≠ "") :
    transformStatusAndError body = Except.ok (toUpperWire s, body.errorCode) := by
  simp only [transformStatusAndError, hs]
  rw [if_neg (toUpperWire_ne_empty s hne)]

/-- Witness for the amended C3 at the concrete body `{ status: "finished" }`. -/
theorem transform_status_uppercases_witness :
    transformStatusAndError ⟨some "finished", none⟩ =
      Except.ok (toUpperWire "finished", none) :=
  transform_status_uppercases_and_rejects_empty ⟨some "finished", none⟩ "finished"
    rfl (by decide)

/-- Modelled from the spec: the deploy-status enumeration
(`RubixSystemStatus` lives in `@server/models/adaptor`, outside the embedded
sources). `UNKNOWN` stands for any wire value other than the three the wait
loop distinguishes. -/
inductive RubixSystemStatus where
  | INDEXING
  | FINISHED
  | FAILED
  | UNKNOWN
deriving DecidableEq, BEq

/-- Modelled from the spec: the deploy response status enumeration. -/
inductive RubixDeployStatusEnum where
  | SUCCESS
  | FAILED
deriving DecidableEq, BEq

structure RubixDeployResponse where
  status : RubixDeployStatusEnum
  error : Option String
deriving DecidableEq

/-- Outcome of the deploy wait loop: `success = none` models the bare
`return;` (undefined) taken on an unrecognized status; `attempts` counts the
status fetches performed; `sleepsMs` lists the backoff sleeps in order. -/
structure WaitOutcome where
  success : Option Bool
  attempts : Nat
  sleepsMs : List Nat
deriving DecidableEq

/-- The `for (let waitTime = 1; waitTime <= 7; waitTime++)` loop of
`RubixAdaptor.waitDeployFinished`, with the remote `getDeployStatus` calls
given by the oracle `f` (indexed by `waitTime`); a `f` error models a thrown
fetch error, which the loop rethrows. Only the `INDEXING` branch reaches the
`setTimeout` backoff of `waitTime * 1000` milliseconds. -/
def waitDeployLoop (f : Nat → Except String RubixSystemStatus) :
    Nat → Nat → List Nat → Except String WaitOutcome
  | 0, attempts, acc => Except.ok ⟨some false, attempts, acc.reverse⟩
  | fuel + 1, attempts, acc =>
    match f (attempts + 1) with
    | Except.error e => Except.error e
    | Except.ok RubixSystemStatus.FINISHED =>
      Except.ok ⟨some true, attempts + 1, acc.reverse⟩
    | Except.ok RubixSystemStatus.FAILED =>
      Except.ok ⟨some false, attempts + 1, acc.reverse⟩
    | Except.ok RubixSystemStatus.INDEXING =>
      waitDeployLoop f fuel (attempts + 1) (((attempts + 1) * 1000) :: acc)
    | Except.ok RubixSystemStatus.UNKNOWN =>
      Except.ok ⟨none, attempts + 1, acc.reverse⟩

/-- `RubixAdaptor.waitDeployFinished`: at most 7 status fetches with backoff
sleeps of 1s, 2s, ..., 7s between consecutive fetches. -/
def waitDeployFinished (f : Nat → Except String RubixSystemStatus) :
    Except String WaitOutcome :=
  waitDeployLoop f 7 0 []

/-- `RubixAdaptor.deploy` after the initial submission returned `deployId`:
awaits the wait loop and maps anything but a `true` outcome (including thrown
errors, caught by the surrounding `try`) to a `FAILED` response carrying an
error message, never rethrowing. -/
def deploy (f : Nat → Except String RubixSystemStatus) (hash : String) :
    RubixDeployResponse :=
  match waitDeployFinished f with
  | Except.error msg =>
    ⟨RubixDeployStatusEnum.FAILED,
      some ("Rubix Error: deployment hash:" ++ hash ++ ", " ++ msg)⟩
  | Except.ok o =>
    if o.success = some true then ⟨RubixDeployStatusEnum.SUCCESS, none⟩
    else
      ⟨RubixDeployStatusEnum.FAILED,
        some ("Rubix: Deploy Rubix failed or timeout, hash: " ++ hash)⟩

/-- Claim C9: when the external system never reaches a terminal status, the
deploy wait loop performs exactly 7 fetch attempts with linearly increasing
backoff sleeps of 1s through 7s (28 seconds of backoff in total, ~30s), and
`deploy` gives up with a `FAILED` response carrying an error message instead
of raising. -/
theorem deploy_bounded_retry_gives_up (f : Nat → Except String RubixSystemStatus)
    (hash : String)
    (h : ∀ k, 1 ≤ k → k ≤ 7 → f k = Except.ok RubixSystemStatus.INDEXING) :
    waitDeployFinished f =
      Except.ok ⟨some false, 7, [1000, 2000, 3000, 4000, 5000, 6000, 7000]⟩ ∧
    ([1000, 2000, 3000, 4000, 5000, 6000, 7000] : List Nat).sum = 28000 ∧
    deploy f hash =
      ⟨RubixDeployStatusEnum.FAILED,
        some ("Rubix: Deploy Rubix failed or timeout, hash: " ++ hash)⟩ := by
  have hw : waitDeployFinished f =
      Except.ok ⟨some false, 7, [1000, 2000, 3000, 4000, 5000, 6000, 7000]⟩ := by
    simp [waitDeployFinished, waitDeployLoop,
      h 1 (by omega) (by omega), h 2 (by omega) (by omega),
      h 3 (by omega) (by omega), h 4 (by omega) (by omega),
      h 5 (by omega) (by omega), h 6 (by omega) (by omega),
      h 7 (by omega) (by omega)]
  refine ⟨hw, by decide, ?_⟩
  simp [deploy, hw]

/-- Witness for C9 with an oracle that always reports `INDEXING`. -/
theorem deploy_bounded_retry_gives_up_witness :
    waitDeployFinished (fun _ => Except.ok RubixSystemStatus.INDEXING) =
      Except.ok ⟨some false, 7, [1000, 2000, 3000, 4000, 5000, 6000, 7000]⟩ ∧
    ([1000, 2000, 3000, 4000, 5000, 6000, 7000] : List Nat).sum = 28000 ∧
    deploy (fun _ => Except.ok RubixSystemStatus.INDEXING) "abc123" =
      ⟨RubixDeployStatusEnum.FAILED,
        some ("Rubix: Deploy Rubix failed or timeout, hash: " ++ "abc123")⟩ :=
  deploy_bounded_retry_gives_up (fun _ => Except.ok RubixSystemStatus.INDEXING)
    "abc123" (fun _ _ _ => rfl)

/-! ### Conversation data model -/

/-- `ThreadResponseAnswerStatus` from `askingService`. -/
inductive ThreadResponseAnswerStatus where
  | NOT_STARTED
  | FETCHING_DATA
  | PREPROCESSING
  | STREAMING
  | FINISHED
  | FAILED
  | INTERRUPTED
deriving DecidableEq, BEq

/-- Modelled from the spec: the adjustment type enumeration
(`ThreadResponseAdjustmentType` lives in `threadResponseRepository`, outside
the embedded sources); the embedded code uses `APPLY_SQL` and the spec lists
manual-SQL and reasoning adjustments. -/
inductive ThreadResponseAdjustmentType where
  | APPLY_SQL
  | REASONING
deriving DecidableEq, BEq

structure AdjustmentPayload where
  originalThreadResponseId : Nat
  sql : String
deriving DecidableEq

structure Adjustment where
  type : ThreadResponseAdjustmentType
  payload : AdjustmentPayload
deriving DecidableEq

/-- The `breakdownDetail` sub-object of a thread response. -/
structure BreakdownDetail where
  queryId : String
  status : AskResultStatus
  error : Option String
  description : Option String
  steps : Option (List Step)
deriving DecidableEq

/-- The `answerDetail` sub-object of a thread response. -/
structure AnswerDetail where
  status : ThreadResponseAnswerStatus
  content : Option String
deriving DecidableEq

/-- A thread response row, restricted to the fields the embedded operations
read or write. -/
structure ThreadResponse where
  id : Nat
  threadId : Nat
  question : String
  sql : Option String
  breakdownDetail : Option BreakdownDetail
  answerDetail : Option AnswerDetail
  adjustment : Option Adjustment
deriving DecidableEq

/-- The result of `getAskDetailResult` as consumed by the breakdown tracker. -/
structure AskDetailResult where
  status : AskResultStatus
  error : Option String
  description : Option String
  steps : Option (List Step)
deriving DecidableEq

/-- The `updatedBreakdownDetail` object the tracker persists on a status
change: the original `queryId` with the freshly fetched fields. -/
def updatedDetail (d : BreakdownDetail) (result : AskDetailResult) : BreakdownDetail :=
  ⟨d.queryId, result.status, result.error, result.description, result.steps⟩

/-! ### Breakdown background tracker as a small-step system

The timer-driven `BreakdownBackgroundTracker.start` loop is embedded as a
transition system. Each polling job runs synchronously up to the `await` of
`getAskDetailResult` and again after it, so a job contributes up to two steps:

* `jobStart r` — the prefix of the job closure for the captured response `r`:
  the `runningJobs` guard check, the running mark, the read of
  `r.breakdownDetail` (a missing detail throws before any fetch) and the
  issuing of the fetch;
* `jobComplete id result` — the continuation once the fetch for `id` resolves
  with `result`: status comparison against the captured detail, the
  conditional persistence write, the conditional retirement from `tasks`, and
  the release of the running mark;
* `jobFail id` — the continuation once the fetch for `id` rejects: the job
  promise rejects (logged by `Promise.allSettled`), so the code after the
  `await` — including `runningJobs.delete` — never runs.

`inFlight` records the fetches issued but not yet resolved, pairing each with
the detail captured by the closure. -/

structure TrackerState where
  tasks : List ThreadResponse
  runningJobs : List Nat
  inFlight : List (Nat × BreakdownDetail)
  db : List ThreadResponse
deriving DecidableEq

/-- Observable effects of a tracker step: a fetch issued to the AI service, or
a persistence write of a breakdown detail. -/
inductive TrackerEvent where
  | fetchStart (id : Nat) (queryId : String)
  | write (id : Nat) (detail : BreakdownDetail)
deriving DecidableEq

inductive TrackerStep where
  | jobStart (r : ThreadResponse)
  | jobComplete (id : Nat) (result : AskDetailResult)
  | jobFail (id : Nat)

/-- One tracker transition, returning the new state and the emitted events. -/
def applyStep (st : TrackerState) : TrackerStep → TrackerState × List TrackerEvent
  | TrackerStep.jobStart r =>
    if r.id ∈ st.runningJobs then (st, [])
    else
      match r.breakdownDetail with
      | none => ({ st with runningJobs := r.id :: st.runningJobs }, [])
      | some d =>
        ({ st with
            runningJobs := r.id :: st.runningJobs,
            inFlight := (r.id, d) :: st.inFlight },
          [TrackerEvent.fetchStart r.id d.queryId])
  | TrackerStep.jobComplete id result =>
    match st.inFlight.find? (fun p => p.1 == id) with
    | none => (st, [])
    | some p =>
      if p.2.status = result.status then
        ({ st with
            runningJobs := st.runningJobs.erase id,
            inFlight := st.inFlight.filter (fun q => q.1 != id) }, [])
      else
        ({ st with
            tasks :=
              if isFinalized result.status then st.tasks.filter (fun r => r.id != id)
              else st.tasks,
            db := st.db.map (fun r =>
              if r.id == id then { r with breakdownDetail := some (updatedDetail p.2 result) }
              else r),
            runningJobs := st.runningJobs.erase id,
            inFlight := st.inFlight.filter (fun q => q.1 != id) },
          [TrackerEvent.write id (updatedDetail p.2 result)])
  | TrackerStep.jobFail id =>
    ({ st with inFlight := st.inFlight.filter (fun q => q.1 != id) }, [])

def applyTrace (init : TrackerState) (trace : List TrackerStep) : TrackerState :=
  trace.foldl (fun s e => (applyStep s e).1) init

/-- The tracker's state at construction: some tracked tasks, an empty running
guard set, and no poll in flight. -/
def startState (tasks db : List ThreadResponse) : TrackerState :=
  ⟨tasks, [], [], db⟩

/-- The safety invariant behind the running-jobs guard: in-flight fetches have
pairwise distinct entity ids, and every in-flight entity carries its running
mark. -/
def TrackerInv (st : TrackerState) : Prop :=
  (st.inFlight.map Prod.fst).Nodup ∧ ∀ p ∈ st.inFlight, p.1 ∈ st.runningJobs

theorem trackerInv_preserved (st : TrackerState) (e : TrackerStep)
    (h : TrackerInv st) : TrackerInv (applyStep st e).1 := by
  obtain ⟨hnd, hsub⟩ := h
  cases e with
  | jobStart r =>
    by_cases hrun : r.id ∈ st.runningJobs
    · simp only [applyStep, if_pos hrun]
      exact ⟨hnd, hsub⟩
    · simp only [applyStep, if_neg hrun]
      cases hdet : r.breakdownDetail with
      | none =>
        refine ⟨hnd, fun p hp => ?_⟩
        exact List.mem_cons_of_mem _ (hsub p hp)
      | some d =>
        constructor
        · simp only [List.map_cons, List.nodup_cons]
          refine ⟨fun hmem => ?_, hnd⟩
          obtain ⟨p, hp, hpe⟩ := List.mem_map.mp hmem
          exact hrun (hpe ▸ hsub p hp)
        · intro p hp
          rcases List.mem_cons.mp hp with hh | ht
          · subst hh; exact List.mem_cons_self _ _
          · exact List.mem_cons_of_mem _ (hsub p ht)
  | jobComplete id result =>
    cases hfind : st.inFlight.find? (fun p => p.1 == id) with
    | none => simp only [applyStep, hfind]; exact ⟨hnd, hsub⟩
    | some p =>
      have hfilter :
          TrackerInv
            { st with
                runningJobs := st.runningJobs.erase id,
                inFlight := st.inFlight.filter (fun q => q.1 != id) } := by
        constructor
        · exact List.Nodup.sublist
            (List.Sublist.map Prod.fst (List.filter_sublist _)) hnd
        · intro q hq
          have hq' := List.mem_filter.mp hq
          have hne : q.1 ≠ id := by
            have := hq'.2
            simpa [bne] using this
          exact (List.mem_erase_of_ne hne).mpr (hsub q hq'.1)
      by_cases heq : p.2.status = result.status
      · simp only [applyStep, hfind, if_pos heq]
        exact hfilter
      · simp only [applyStep, hfind, if_neg heq]
        exact hfilter
  | jobFail id =>
    constructor
    · exact List.Nodup.sublist
        (List.Sublist.map Prod.fst (List.filter_sublist _)) hnd
    · intro q hq
      exact hsub q (List.mem_filter.mp hq).1

theorem trackerInv_trace (trace : List TrackerStep) :
    ∀ (init : TrackerState), TrackerInv init → TrackerInv (applyTrace init trace) := by
  induction trace with
  | nil => intro init h; exact h
  | cons e rest ih =>
    intro init h
    exact ih _ (trackerInv_preserved init e h)

theorem countP_le_one_of_nodup_map (l : List (Nat × BreakdownDetail)) (id : Nat)
    (h : (l.map Prod.fst).Nodup) : l.countP (fun p => p.1 == id) ≤ 1 := by
  induction l with
  | nil => simp
  | cons a l ih =>
    simp only [List.map_cons, List.nodup_cons] at h
    rw [List.countP_cons]
    by_cases ha : a.1 = id
    · have hzero : l.countP (fun p => p.1 == id) = 0 := by
        rw [List.countP_eq_zero]
        intro q hq
        simp only [beq_iff_eq]
        intro hqe
        exact h.1 (List.mem_map.mpr ⟨q, hq, by rw [hqe, ha]⟩)
      simp [hzero, ha]
    · have : (a.1 == id) = false := by simpa using ha
      simp only [this, if_false, Nat.add_zero]
      exact ih h.2

/-- Claim C1: starting from a fresh tracker state, along any interleaving of
job prefixes and fetch continuations, at most one poll is in flight per
tracked entity; moreover a job whose entity already carries the running mark
is skipped for that cycle — it changes nothing and issues no fetch. The mark
is set before the fetch is issued (`jobStart`) and cleared only when the poll
completes (`jobComplete`). -/
theorem tracker_at_most_one_poll_in_flight :
    (∀ (tasks db : List ThreadResponse) (trace : List TrackerStep) (id : Nat),
      ((applyTrace (startState tasks db) trace).inFlight.countP
        (fun p => p.1 == id)) ≤ 1) ∧
    (∀ (st : TrackerState) (r : ThreadResponse),
      r.id ∈ st.runningJobs →
        applyStep st (TrackerStep.jobStart r) = (st, [])) := by
  constructor
  · intro tasks db trace id
    have hinv : TrackerInv (applyTrace (startState tasks db) trace) :=
      trackerInv_trace trace (startState tasks db) (by constructor <;> simp [startState])
    exact countP_le_one_of_nodup_map _ id hinv.1
  · intro st r hrun
    simp only [applyStep, if_pos hrun]

/-- Witness for C1: the empty trace in-flight bound at a concrete state, and a
concrete running entity being skipped. -/
theorem tracker_at_most_one_poll_in_flight_witness :
    ((applyTrace (startState [] []) []).inFlight.countP (fun p => p.1 == 5)) ≤ 1 ∧
    applyStep ⟨[], [5], [], []⟩
        (TrackerStep.jobStart ⟨5, 1, "q", none, none, none, none⟩) =
      (⟨[], [5], [], []⟩, []) :=
  ⟨tracker_at_most_one_poll_in_flight.1 [] [] [] 5,
   tracker_at_most_one_poll_in_flight.2 ⟨[], [5], [], []⟩
     ⟨5, 1, "q", none, none, none, none⟩ (by simp)⟩

/-- Claim C2: when a poll for a tracked entity completes (the entity's
captured detail status being non-terminal, as holds for every task the
service registers), the entity is removed from the tracker's task set if and
only if the fetched remote status is terminal (`FINISHED`, `FAILED` or
`STOPPED`); a non-terminal result never removes it. -/
theorem tracker_removes_iff_terminal (st : TrackerState) (id : Nat)
    (d : BreakdownDetail) (result : AskDetailResult)
    (hin : st.inFlight.find? (fun p => p.1 == id) = some (id, d))
    (hnf : isFinalized d.status = false)
    (htracked : ∃ r ∈ st.tasks, r.id = id) :
    ((∀ r ∈ (applyStep st (TrackerStep.jobComplete id result)).1.tasks, r.id ≠ id) ↔
      isFinalized result.status = true) := by
  obtain ⟨r0, hr0, hr0id⟩ := htracked
  by_cases heq : d.status = result.status
  · have hrf : isFinalized result.status = false := by rw [← heq]; exact hnf
    simp only [applyStep, hin, if_pos heq]
    simp only [hrf]
    constructor
    · intro hall
      exact absurd hr0id (hall r0 hr0)
    · intro hfalse
      exact absurd hfalse (by simp)
  · simp only [applyStep, hin, if_neg heq]
    cases hf : isFinalized result.status with
    | true =>
      rw [if_pos rfl]
      constructor
      · intro _; rfl
      · intro _ r hr
        have hq := (List.mem_filter.mp hr).2
        simpa using hq
    | false =>
      rw [if_neg Bool.false_ne_true]
      constructor
      · intro hall
        exact absurd hr0id (hall r0 hr0)
      · intro hfalse
        exact absurd hfalse (by simp)

/-- Witness for C2: a concrete completing poll with terminal result `FINISHED`
retires the concrete tracked entity. -/
theorem tracker_removes_iff_terminal_witness :
    ((∀ r ∈ (applyStep
          ⟨[⟨7, 1, "q", none, some ⟨"qid", AskResultStatus.UNDERSTANDING, none, none, none⟩,
              none, none⟩],
            [7], [(7, ⟨"qid", AskResultStatus.UNDERSTANDING, none, none, none⟩)], []⟩
          (TrackerStep.jobComplete 7
            ⟨AskResultStatus.FINISHED, none, none, none⟩)).1.tasks, r.id ≠ 7) ↔
      isFinalized AskResultStatus.FINISHED = true) :=
  tracker_removes_iff_terminal
    ⟨[⟨7, 1, "q", none, some ⟨"qid", AskResultStatus.UNDERSTANDING, none, none, none⟩,
        none, none⟩],
      [7], [(7, ⟨"qid", AskResultStatus.UNDERSTANDING, none, none, none⟩)], []⟩
    7 ⟨"qid", AskResultStatus.UNDERSTANDING, none, none, none⟩
    ⟨AskResultStatus.FINISHED, none, none, none⟩
    rfl rfl
    ⟨⟨7, 1, "q", none, some ⟨"qid", AskResultStatus.UNDERSTANDING, none, none, none⟩,
        none, none⟩, by simp, rfl⟩

/-- Claim C4: when a poll completes with the same status as the one in the
entity's captured (persisted-at-registration) detail record, the tracker emits
no persistence write for that tick, releases the running mark, and leaves the
task set and the database untouched — the entity remains tracked. -/
theorem tracker_no_write_when_unchanged (st : TrackerState) (id : Nat)
    (d : BreakdownDetail) (result : AskDetailResult)
    (hin : st.inFlight.find? (fun p => p.1 == id) = some (id, d))
    (heq : d.status = result.status) :
    applyStep st (TrackerStep.jobComplete id result) =
      ({ st with
          runningJobs := st.runningJobs.erase id,
          inFlight := st.inFlight.filter (fun q => q.1 != id) }, []) := by
  simp only [applyStep, hin, if_pos heq]

/-- Witness for C4: a concrete unchanged poll releases the running mark and
writes nothing. -/
theorem tracker_no_write_when_unchanged_witness :
    applyStep
        ⟨[⟨7, 1, "q", none, some ⟨"qid", AskResultStatus.UNDERSTANDING, none, none, none⟩,
            none, none⟩],
          [7], [(7, ⟨"qid", AskResultStatus.UNDERSTANDING, none, none, none⟩)], []⟩
        (TrackerStep.jobComplete 7
          ⟨AskResultStatus.UNDERSTANDING, none, none, none⟩) =
      (⟨[⟨7, 1, "q", none, some ⟨"qid", AskResultStatus.UNDERSTANDING, none, none, none⟩,
            none, none⟩],
          ([7] : List Nat).erase 7,
          ([(7, ⟨"qid", AskResultStatus.UNDERSTANDING, none, none, none⟩)] :
            List (Nat × BreakdownDetail)).filter (fun q => q.1 != 7), []⟩, []) :=
  tracker_no_write_when_unchanged
    ⟨[⟨7, 1, "q", none, some ⟨"qid", AskResultStatus.UNDERSTANDING, none, none, none⟩,
        none, none⟩],
      [7], [(7, ⟨"qid", AskResultStatus.UNDERSTANDING, none, none, none⟩)], []⟩
    7 ⟨"qid", AskResultStatus.UNDERSTANDING, none, none, none⟩
    ⟨AskResultStatus.UNDERSTANDING, none, none, none⟩
    rfl rfl

/-! ### Thread response repository and the asking service operations -/

/-- The thread response repository: its rows and the next id it will assign.
`findOneBy` returns the first row with the given id; `createOne` appends a row
with a fresh id; `updateOne` rewrites the rows with the given id in place. -/
structure RepoState where
  rows : List ThreadResponse
  nextId : Nat
deriving DecidableEq

def findOneBy (s : RepoState) (rid : Nat) : Option ThreadResponse :=
  s.rows.find? (fun r => r.id == rid)

/-- Well-formedness of a repository state: every stored row has an id below
the next id to be assigned. -/
def RepoWf (s : RepoState) : Prop :=
  ∀ x ∈ s.rows, x.id < s.nextId

/-- `AskingService.adjustThreadResponseWithSQL`: looks up the response (a
missing one throws `not found`), then creates a brand-new response in the same
thread with the same question, the new SQL, and an `APPLY_SQL` adjustment
record whose payload points at the original response's id. -/
def adjustThreadResponseWithSQL (s : RepoState) (rid : Nat) (sqlText : String) :
    Except String (ThreadResponse × RepoState) :=
  match findOneBy s rid with
  | none => Except.error s!"Thread response {rid} not found"
  | some r =>
    let t : ThreadResponse :=
      { id := s.nextId
        threadId := r.threadId
        question := r.question
        sql := some sqlText
        breakdownDetail := none
        answerDetail := none
        adjustment :=
          some ⟨ThreadResponseAdjustmentType.APPLY_SQL, ⟨r.id, sqlText⟩⟩ }
    Except.ok (t, ⟨s.rows ++ [t], s.nextId + 1⟩)

/-- `AskingService.changeThreadResponseAnswerDetailStatus`: looks up the
response (a missing one throws `not found`); when the stored answer detail
already carries the requested status it bails out with a bare `return`
(modelled as `none`) and performs no write; otherwise it writes the merged
answer detail and returns the updated response. -/
def changeThreadResponseAnswerDetailStatus (s : RepoState) (rid : Nat)
    (status : ThreadResponseAnswerStatus) (content : Option String) :
    Except String (Option ThreadResponse × RepoState) :=
  match findOneBy s rid with
  | none => Except.error s!"Thread response {rid} not found"
  | some r =>
    if r.answerDetail.map AnswerDetail.status = some status then
      Except.ok (none, s)
    else
      let rows' := s.rows.map (fun x =>
        if x.id == rid then { x with answerDetail := some ⟨status, content⟩ } else x)
      Except.ok (rows'.find? (fun x => x.id == rid), ⟨rows', s.nextId⟩)

theorem find?_append_left (l₁ l₂ : List ThreadResponse) (p : ThreadResponse → Bool)
    (r : ThreadResponse) (h : l₁.find? p = some r) : (l₁ ++ l₂).find? p = some r := by
  induction l₁ with
  | nil => exact absurd h (by simp)
  | cons a l ih =>
    cases hp : p a with
    | true =>
      have h1 : List.find? p (a :: l) = some a := List.find?_cons_of_pos _ hp
      rw [h1] at h
      rw [List.cons_append]
      have h2 : List.find? p (a :: (l ++ l₂)) = some a := List.find?_cons_of_pos _ hp
      rw [h2]
      exact h
    | false =>
      have h1 : List.find? p (a :: l) = List.find? p l :=
        List.find?_cons_of_neg _ (by simp [hp])
      rw [h1] at h
      rw [List.cons_append]
      have h2 : List.find? p (a :: (l ++ l₂)) = List.find? p (l ++ l₂) :=
        List.find?_cons_of_neg _ (by simp [hp])
      rw [h2]
      exact ih h

theorem find?_map_update (rows : List ThreadResponse) (rid : Nat)
    (f : ThreadResponse → ThreadResponse) (hf : ∀ x, (f x).id = x.id)
    (r : ThreadResponse) (h : rows.find? (fun x => x.id == rid) = some r) :
    (rows.map (fun x => if x.id == rid then f x else x)).find?
        (fun x => x.id == rid) = some (f r) := by
  induction rows with
  | nil => exact absurd h (by simp)
  | cons a l ih =>
    cases ha : (a.id == rid) with
    | true =>
      have hfind : List.find? (fun x => x.id == rid) (a :: l) = some a :=
        List.find?_cons_of_pos _ ha
      rw [hfind] at h
      have hra : a = r := by injection h
      have hfa : ((f a).id == rid) = true := by rw [hf a]; exact ha
      simp only [List.map_cons, if_pos ha]
      have hgoal : List.find? (fun x => x.id == rid)
          (f a :: l.map (fun x => if x.id == rid then f x else x)) = some (f a) :=
        List.find?_cons_of_pos _ hfa
      rw [hgoal, hra]
    | false =>
      have hfind : List.find? (fun x => x.id == rid) (a :: l) =
          List.find? (fun x => x.id == rid) l :=
        List.find?_cons_of_neg _ (by simp [ha])
      rw [hfind] at h
      simp only [List.map_cons, if_neg (by simp [ha] : ¬ (a.id == rid) = true)]
      have hgoal : List.find? (fun x => x.id == rid)
          (a :: l.map (fun x => if x.id == rid then f x else x)) =
          List.find? (fun x => x.id == rid)
            (l.map (fun x => if x.id == rid then f x else x)) :=
        List.find?_cons_of_neg _ (by simp [ha])
      rw [hgoal]
      exact ih h

/-- Claim C8: for an existing thread response, `adjustThreadResponseWithSQL`
creates a new response in the same thread with the same question, whose
adjustment record has type `APPLY_SQL` and a payload pointing at the original
response's id; the new response has a fresh id and the original row — its
stored `sql` and every other field — is left untouched in the repository. -/
theorem adjust_with_sql_creates_new_response (s : RepoState) (rid : Nat)
    (q : String) (r : ThreadResponse)
    (hw : RepoWf s)
    (h : findOneBy s rid = some r) :
    ∃ t s', adjustThreadResponseWithSQL s rid q = Except.ok (t, s') ∧
      t.adjustment = some ⟨ThreadResponseAdjustmentType.APPLY_SQL, ⟨r.id, q⟩⟩ ∧
      t.threadId = r.threadId ∧ t.question = r.question ∧ t.sql = some q ∧
      t.id ≠ r.id ∧
      findOneBy s' rid = some r ∧
      s'.rows = s.rows ++ [t] := by
  have hmem : r ∈ s.rows := List.mem_of_find?_eq_some h
  have hlt : r.id < s.nextId := hw r hmem
  refine ⟨{ id := s.nextId
            threadId := r.threadId
            question := r.question
            sql := some q
            breakdownDetail := none
            answerDetail := none
            adjustment :=
              some ⟨ThreadResponseAdjustmentType.APPLY_SQL, ⟨r.id, q⟩⟩ },
          ⟨s.rows ++
            [{ id := s.nextId
               threadId := r.threadId
               question := r.question
               sql := some q
               breakdownDetail := none
               answerDetail := none
               adjustment :=
                 some ⟨ThreadResponseAdjustmentType.APPLY_SQL, ⟨r.id, q⟩⟩ }],
            s.nextId + 1⟩, ?_, rfl, rfl, rfl, rfl, ?_, ?_, rfl⟩
  · simp only [adjustThreadResponseWithSQL, h]
  · intro hcontra
    have hc' : s.nextId = r.id := hcontra
    omega
  · exact find?_append_left s.rows _ _ r h

/-- Witness for C8 at a concrete one-row repository. -/
theorem adjust_with_sql_creates_new_response_witness :
    ∃ t s', adjustThreadResponseWithSQL
        ⟨[⟨7, 3, "how many", some "SELECT 1", none, none, none⟩], 8⟩ 7 "SELECT 2" =
      Except.ok (t, s') ∧
      t.adjustment = some ⟨ThreadResponseAdjustmentType.APPLY_SQL, ⟨7, "SELECT 2"⟩⟩ ∧
      t.threadId = 3 ∧ t.question = "how many" ∧ t.sql = some "SELECT 2" ∧
      t.id ≠ 7 ∧
      findOneBy s' 7 = some ⟨7, 3, "how many", some "SELECT 1", none, none, none⟩ ∧
      s'.rows = [⟨7, 3, "how many", some "SELECT 1", none, none, none⟩] ++ [t] :=
  adjust_with_sql_creates_new_response
    ⟨[⟨7, 3, "how many", some "SELECT 1", none, none, none⟩], 8⟩ 7 "SELECT 2"
    ⟨7, 3, "how many", some "SELECT 1", none, none, none⟩
    (by intro x hx; simp at hx; subst hx; decide) rfl

/-- Claim C10: for an existing thread response whose current answer detail
already carries the requested status, `changeThreadResponseAnswerDetailStatus`
performs no repository write and returns `undefined` (`none`) instead of the
`ThreadResponse` its interface promises; when the requested status differs, it
writes the new detail and returns the updated response. -/
theorem change_answer_status_noop_when_same (s : RepoState) (rid : Nat)
    (status : ThreadResponseAnswerStatus) (content : Option String)
    (r : ThreadResponse) (h : findOneBy s rid = some r) :
    (r.answerDetail.map AnswerDetail.status = some status →
      changeThreadResponseAnswerDetailStatus s rid status content =
        Except.ok (none, s)) ∧
    (r.answerDetail.map AnswerDetail.status ≠ some status →
      changeThreadResponseAnswerDetailStatus s rid status content =
        Except.ok
          (some { r with answerDetail := some ⟨status, content⟩ },
            ⟨s.rows.map (fun x =>
              if x.id == rid then { x with answerDetail := some ⟨status, content⟩ }
              else x), s.nextId⟩)) := by
  constructor
  · intro hsame
    simp only [changeThreadResponseAnswerDetailStatus, h, if_pos hsame]
  · intro hdiff
    simp only [changeThreadResponseAnswerDetailStatus, h, if_neg hdiff]
    rw [find?_map_update s.rows rid
      (fun x => { x with answerDetail := some ⟨status, content⟩ }) (fun _ => rfl) r h]

/-- Witness for C10: a concrete response already in `FINISHED` state yields no
write and an `undefined` result. -/
theorem change_answer_status_noop_when_same_witness :
    changeThreadResponseAnswerDetailStatus
        ⟨[⟨7, 3, "q", none, none,
            some ⟨ThreadResponseAnswerStatus.FINISHED, none⟩, none⟩], 8⟩
        7 ThreadResponseAnswerStatus.FINISHED none =
      Except.ok (none,
        ⟨[⟨7, 3, "q", none, none,
            some ⟨ThreadResponseAnswerStatus.FINISHED, none⟩, none⟩], 8⟩) :=
  (change_answer_status_noop_when_same
      ⟨[⟨7, 3, "q", none, none,
          some ⟨ThreadResponseAnswerStatus.FINISHED, none⟩, none⟩], 8⟩
      7 ThreadResponseAnswerStatus.FINISHED none
      ⟨7, 3, "q", none, none,
        some ⟨ThreadResponseAnswerStatus.FINISHED, none⟩, none⟩ rfl).1 rfl

end Wren
